import Mathlib

/-!
Verification of the contact-form submission pipeline of the
`company-bootstrap5` repository (`assets/js/contact-form.js` and the
components module's sanitation helpers).

Strings are modelled as `List Char`; JavaScript values that may or may not
be strings are modelled by `JsVal`.  Epoch-millisecond timestamps are `Int`
(JS numbers are exact on this range).  Randomness (`crypto.getRandomValues`
on a `Uint8Array(32)`) is modelled by passing the produced byte list as an
explicit argument.
-/

/-- The apostrophe character, written via its code point. -/
def apoChar : Char := Char.ofNat 39

/-- The set of characters treated as whitespace by JavaScript's `\s`
regular-expression class, `String.prototype.trim`, and `\b`-adjacent
whitespace handling (WhiteSpace ∪ LineTerminator). -/
def jsWsChars : List Char :=
  [' ', '\t', '\n', Char.ofNat 11, Char.ofNat 12, '\r',
   Char.ofNat 0x00a0, Char.ofNat 0x1680,
   Char.ofNat 0x2000, Char.ofNat 0x2001, Char.ofNat 0x2002, Char.ofNat 0x2003,
   Char.ofNat 0x2004, Char.ofNat 0x2005, Char.ofNat 0x2006, Char.ofNat 0x2007,
   Char.ofNat 0x2008, Char.ofNat 0x2009, Char.ofNat 0x200a,
   Char.ofNat 0x2028, Char.ofNat 0x2029, Char.ofNat 0x202f,
   Char.ofNat 0x205f, Char.ofNat 0x3000, Char.ofNat 0xfeff]

/-- `c` is a JavaScript whitespace character. -/
def isJsWs (c : Char) : Bool := jsWsChars.contains c

/-- `String.prototype.trim`: drop JS whitespace from both ends. -/
def jsTrim (s : List Char) : List Char :=
  ((s.dropWhile isJsWs).reverse.dropWhile isJsWs).reverse

/-- Lowercase hexadecimal digit, as produced by `Number.prototype.toString(16)`. -/
def hexDigit (n : Nat) : Char :=
  if n < 10 then Char.ofNat (48 + n) else Char.ofNat (87 + n)

/-- Fuel-based base-16 digit expansion; `fuel ≥ n` suffices since the
argument shrinks by a factor of 16 each step. -/
def natToHexAux : Nat → Nat → List Char
  | 0, n => [hexDigit n]
  | fuel + 1, n =>
      if n < 16 then [hexDigit n]
      else natToHexAux fuel (n / 16) ++ [hexDigit (n % 16)]

/-- `b.toString(16)`: base-16 representation, lowercase, no leading zeros. -/
def natToHex (n : Nat) : List Char := natToHexAux n n

/-- `.padStart(2, '0')`: left-pad with zeros to length at least 2. -/
def padStart2 (s : List Char) : List Char :=
  if s.length ≥ 2 then s else List.replicate (2 - s.length) '0' ++ s

/-- `generateCSRFToken` (contact-form.js lines 10–14): hex-encode the 32
random bytes produced by `crypto.getRandomValues`, two lowercase hex digits
per byte, concatenated.  The byte list is the random source, passed
explicitly. -/
def generateCSRFToken (bytes : List Nat) : List Char :=
  (bytes.map (fun b => padStart2 (natToHex b))).flatten

/-- Value of one lowercase hex digit character. -/
def hexCharVal (c : Char) : Nat :=
  if 97 ≤ c.toNat then c.toNat - 87 else c.toNat - 48

/-- Decode a two-character hex block. -/
def hexPairVal : List Char → Nat
  | [c, d] => 16 * hexCharVal c + hexCharVal d
  | _ => 0

/-- `initCSRFToken` (contact-form.js lines 19–35), restricted to its store
effect: read `sessionStorage.csrf_token`; if it is absent (`null`) or the
empty string (both falsy in `if (!token)`), generate a fresh token from
`fresh` and persist it; otherwise keep the stored token.  Returns the new
store content and the token written into the hidden form field. -/
def initCSRFToken (sess : Option (List Char)) (fresh : List Nat) :
    Option (List Char) × List Char :=
  match sess with
  | some t =>
      if t = [] then
        let tk := generateCSRFToken fresh
        (some tk, tk)
      else (some t, t)
  | none =>
      let tk := generateCSRFToken fresh
      (some tk, tk)

/-- Modelled from the spec: `rotateToken` is described in §4.2 of the design
("unconditionally generates and persists a new token, discarding the old
one") but no function of the sources rotates the token — the code re-runs
`initCSRFToken` after a successful submission, which keeps an existing
token.  This definition follows the spec's words. -/
def rotateToken (fresh : List Nat) : Option (List Char) × List Char :=
  let tk := generateCSRFToken fresh
  (some tk, tk)

/-- One hour in milliseconds (`60 * 60 * 1000`). -/
def oneHour : Int := 3600000

/-- `Math.min(...recent)` over a list of timestamps.  The empty case is
unreachable at the call site (the list has at least three elements there);
it is given an arbitrary total value. -/
def jsMathMin : List Int → Int
  | [] => 0
  | [x] => x
  | x :: y :: rest => min x (jsMathMin (y :: rest))

/-- Exact integer value of `Math.ceil(a / b)` for `b > 0`. -/
def jsMathCeilDiv (a b : Int) : Int := (a + b - 1).fdiv b

/-- Result object of `checkRateLimit`: `{allowed, message}` (the denial
message carries the rounded-up minutes). -/
structure RateLimitResult where
  allowed : Bool
  message : List Char
deriving Repr, DecidableEq

/-- Denial message of `checkRateLimit`, parameterised by the minute count. -/
def rateLimitMsg (minutes : Int) : List Char :=
  ("Rate limit exceeded. Please try again in ").data ++
    (toString minutes).data ++ (" minute(s).").data

/-- `checkRateLimit` (contact-form.js lines 112–132): keep the stored
timestamps with `now - t < oneHour`; if at least 3 remain, deny, reporting
`Math.ceil((oldest + oneHour - now) / 60000)` minutes; otherwise allow. -/
def checkRateLimit (submissions : List Int) (now : Int) : RateLimitResult :=
  let recent := submissions.filter (fun t => now - t < oneHour)
  if recent.length ≥ 3 then
    let oldest := jsMathMin recent
    let timeUntilNext := oldest + oneHour - now
    let minutesLeft := jsMathCeilDiv timeUntilNext 60000
    { allowed := false, message := rateLimitMsg minutesLeft }
  else
    { allowed := true, message := [] }

/-- `recordSubmission` (contact-form.js lines 137–148): push `now`; if the
length then exceeds 10, `shift()` removes one element from the front. -/
def recordSubmission (submissions : List Int) (now : Int) : List Int :=
  let s := submissions ++ [now]
  if s.length > 10 then s.drop 1 else s

/-- The three validated field identities (`field.name` values the `switch`
in `validateField` distinguishes). -/
inductive FieldName where
  | name
  | email
  | message
deriving Repr, DecidableEq

/-- ASCII letter, the `a-zA-Z` ranges of the name regex. -/
def isAsciiLetter (c : Char) : Bool :=
  ('a' ≤ c && c ≤ 'z') || ('A' ≤ c && c ≤ 'Z')

/-- Character class `[a-zA-Z\s'-]` of the name rule. -/
def isNameChar (c : Char) : Bool :=
  isAsciiLetter c || isJsWs c || c = apoChar || c = '-'

/-- `/^[a-zA-Z\s'-]+$/.test value`: nonempty and every character in the
class. -/
def nameRegexTest (value : List Char) : Bool :=
  !value.isEmpty && value.all isNameChar

/-- Character class `[^\s@]` of the email regex. -/
def isEmailAtomChar (c : Char) : Bool :=
  !isJsWs c && c ≠ '@'

/-- Split a string at its first `@`: returns the part before and after. -/
def emailLocalSplit : List Char → Option (List Char × List Char)
  | [] => none
  | c :: cs =>
      if c = '@' then some ([], cs)
      else (emailLocalSplit cs).map (fun p => (c :: p.1, p.2))

/-- `l` contains a `.` at some position other than the last. -/
def dotNotLast : List Char → Bool
  | [] => false
  | [_] => false
  | c :: cs => (c = '.' : Bool) || dotNotLast cs

/-- `/^[^\s@]+@[^\s@]+\.[^\s@]+$/.test value`.  The part before the `@` is
nonempty and `@`-free, so a successful match always splits at the first
`@`; after it, every character is in `[^\s@]` and some `.` occurs neither
immediately after the `@` nor at the end. -/
def emailRegexTest (value : List Char) : Bool :=
  match emailLocalSplit value with
  | none => false
  | some (a, rest) =>
      !a.isEmpty && a.all isEmailAtomChar && rest.all isEmailAtomChar &&
        (match rest with
         | [] => false
         | _ :: l => dotNotLast l)

/-- Inline error messages of `validateField`. -/
def nameLenMsg : List Char := ("Name must be between 2 and 100 characters").data

def nameCharMsg : List Char :=
  ("Name can only contain letters, spaces, hyphens, and apostrophes").data

def emailErrMsg : List Char := ("Please enter a valid email address").data

def messageLenMsg : List Char :=
  ("Message must be between 10 and 2000 characters").data

/-- Decision core of `validateField` (contact-form.js lines 40–71): trim
the raw value, then apply the per-field `switch`.  Returns the validity
flag and the error message (empty when valid). -/
def validateValue (fn : FieldName) (raw : List Char) : Bool × List Char :=
  let value := jsTrim raw
  match fn with
  | FieldName.name =>
      if value.length < 2 || value.length > 100 then (false, nameLenMsg)
      else if !nameRegexTest value then (false, nameCharMsg)
      else (true, [])
  | FieldName.email =>
      if !emailRegexTest value then (false, emailErrMsg)
      else (true, [])
  | FieldName.message =>
      if value.length < 10 || value.length > 2000 then (false, messageLenMsg)
      else (true, [])

/-- One form input's DOM-visible state: its value, which of the
`is-valid`/`is-invalid` classes it carries (`none` = neither), and the
associated feedback element's text and visibility. -/
structure FormField where
  value : List Char
  validCls : Option Bool
  feedbackText : List Char
  feedbackShown : Bool
deriving Repr, DecidableEq

/-- UI effect of `validateField` (contact-form.js lines 73–92): on success
set `is-valid` and hide the feedback; on failure set `is-invalid`, write the
error message into the feedback and show it.  Returns the updated field and
the validity flag. -/
def applyValidation (fn : FieldName) (f : FormField) : FormField × Bool :=
  let r := validateValue fn f.value
  if r.1 then
    ({ f with validCls := some true, feedbackShown := false }, true)
  else
    ({ f with validCls := some false, feedbackText := r.2,
              feedbackShown := true }, false)

/-- A JavaScript value at the sanitizer boundary: either a string or any
non-string value (number, null, undefined, object, …), which the guards
`typeof text !== 'string'` treat uniformly. -/
inductive JsVal where
  | str (s : List Char)
  | nonString
deriving Repr, DecidableEq

/-- `&amp;` -/
def ampEntity : List Char := ['&', 'a', 'm', 'p', ';']

/-- `&lt;` -/
def ltEntity : List Char := ['&', 'l', 't', ';']

/-- `&gt;` -/
def gtEntity : List Char := ['&', 'g', 't', ';']

/-- `&quot;` -/
def quotEntity : List Char := ['&', 'q', 'u', 'o', 't', ';']

/-- `&#039;` -/
def aposEntity : List Char := ['&', '#', '0', '3', '9', ';']

/-- `&#x2F;` -/
def slashEntity : List Char := ['&', '#', 'x', '2', 'F', ';']

/-- The entity table of `escapeHtml`. -/
def escEntities : List (List Char) :=
  [ampEntity, ltEntity, gtEntity, quotEntity, aposEntity, slashEntity]

/-- Per-character replacement of `escapeHtml`'s
`replace(/[&<>"'\/]/g, ch => map[ch])`. -/
def escChar (c : Char) : List Char :=
  if c = '&' then ampEntity
  else if c = '<' then ltEntity
  else if c = '>' then gtEntity
  else if c = '"' then quotEntity
  else if c = apoChar then aposEntity
  else if c = '/' then slashEntity
  else [c]

/-- `escapeHtml` (components module): non-string input yields the empty
string; a string is escaped character by character. -/
def escapeHtml : JsVal → List Char
  | JsVal.nonString => []
  | JsVal.str s => (s.map escChar).flatten

/-- Case-insensitive prefix test (`pat` given in lowercase). -/
def ciPrefix : List Char → List Char → Bool
  | [], _ => true
  | _ :: _, [] => false
  | p :: ps, c :: cs => (c.toLower = p : Bool) && ciPrefix ps cs

/-- Regex word character `\w`. -/
def isWordChar (c : Char) : Bool :=
  isAsciiLetter c || ('0' ≤ c && c ≤ '9') || c = '_'

/-- Scan for the closing `</script\s*>` of a script block; returns the
remainder after the `>` when found. -/
def findScriptClose : List Char → Option (List Char)
  | [] => none
  | c :: cs =>
      if ciPrefix ("</script").data (c :: cs) then
        let rest := ((c :: cs).drop 8).dropWhile isJsWs
        match rest with
        | '>' :: r => some r
        | _ => findScriptClose cs
      else findScriptClose cs

/-- Fuel-driven scan removing `<script …>…</script>` blocks
(`/<script\b[^<]*(?:(?!<\/script>)<[^<]*)*<\/script\s*>/gi`): each
`<script` occurrence followed by a word boundary opens a block that runs to
the next closing tag; unterminated openers are kept verbatim. -/
def stripScriptAux : Nat → List Char → List Char
  | 0, s => s
  | _ + 1, [] => []
  | fuel + 1, c :: cs =>
      if ciPrefix ("<script").data (c :: cs) &&
          !(((c :: cs).drop 7).headD ' ' |> isWordChar) then
        match findScriptClose ((c :: cs).drop 7) with
        | some rest => stripScriptAux fuel rest
        | none => c :: stripScriptAux fuel cs
      else c :: stripScriptAux fuel cs

/-- First replacement pass of `sanitizeHtml`. -/
def stripScriptBlocks (s : List Char) : List Char :=
  stripScriptAux s.length s

/-- Attempt to match `\s*on\w+\s*=\s*["'][^"']*["']` at the head of `s`;
returns the remainder after the match. -/
def tryEvQuoted (s : List Char) : Option (List Char) :=
  let s1 := s.dropWhile isJsWs
  if ciPrefix ("on").data s1 then
    let s2 := s1.drop 2
    let w := s2.takeWhile isWordChar
    if w.isEmpty then none
    else
      let s3 := (s2.dropWhile isWordChar).dropWhile isJsWs
      match s3 with
      | '=' :: s4 =>
          let s5 := s4.dropWhile isJsWs
          match s5 with
          | q :: s6 =>
              if q = '"' || q = apoChar then
                let s7 := s6.dropWhile (fun c => !(c = '"' || c = apoChar))
                match s7 with
                | q2 :: s8 =>
                    if q2 = '"' || q2 = apoChar then some s8 else none
                | [] => none
              else none
          | [] => none
      | _ => none
  else none

/-- Attempt to match `\s*on\w+\s*=\s*[^\s>]*` at the head of `s`. -/
def tryEvUnquoted (s : List Char) : Option (List Char) :=
  let s1 := s.dropWhile isJsWs
  if ciPrefix ("on").data s1 then
    let s2 := s1.drop 2
    let w := s2.takeWhile isWordChar
    if w.isEmpty then none
    else
      let s3 := (s2.dropWhile isWordChar).dropWhile isJsWs
      match s3 with
      | '=' :: s4 =>
          let s5 := s4.dropWhile isJsWs
          some (s5.dropWhile (fun c => !isJsWs c && c ≠ '>'))
      | _ => none
  else none

/-- Fuel-driven global replacement of a head-matcher by the empty string. -/
def stripMatchesAux (try? : List Char → Option (List Char)) :
    Nat → List Char → List Char
  | 0, s => s
  | _ + 1, [] => []
  | fuel + 1, c :: cs =>
      match try? (c :: cs) with
      | some rest =>
          if rest.length < cs.length + 1 then stripMatchesAux try? fuel rest
          else c :: stripMatchesAux try? fuel cs
      | none => c :: stripMatchesAux try? fuel cs

/-- Second pass: `replace(/\s*on\w+\s*=\s*["'][^"']*["']/gi, '')`. -/
def stripEvQuoted (s : List Char) : List Char :=
  stripMatchesAux tryEvQuoted s.length s

/-- Third pass: `replace(/\s*on\w+\s*=\s*[^\s>]*/gi, '')`. -/
def stripEvUnquoted (s : List Char) : List Char :=
  stripMatchesAux tryEvUnquoted s.length s

/-- Fuel-driven rewrite of `word\s*:` (case-insensitive) to `blocked:`. -/
def rewriteSchemeAux (word : List Char) : Nat → List Char → List Char
  | 0, s => s
  | _ + 1, [] => []
  | fuel + 1, c :: cs =>
      if ciPrefix word (c :: cs) then
        let rest := ((c :: cs).drop word.length).dropWhile isJsWs
        match rest with
        | ':' :: r => ("blocked:").data ++ rewriteSchemeAux word fuel r
        | _ => c :: rewriteSchemeAux word fuel cs
      else c :: rewriteSchemeAux word fuel cs

/-- `replace(/word\s*:/gi, 'blocked:')`. -/
def rewriteScheme (word : List Char) (s : List Char) : List Char :=
  rewriteSchemeAux word s.length s

/-- `sanitizeHtml` (components module): non-string input yields the empty
string; a string goes through script-block removal, the two event-handler
passes and the three URI-scheme rewrites, in source order. -/
def sanitizeHtml : JsVal → List Char
  | JsVal.nonString => []
  | JsVal.str s =>
      rewriteScheme ("vbscript").data
        (rewriteScheme ("data").data
          (rewriteScheme ("javascript").data
            (stripEvUnquoted (stripEvQuoted (stripScriptBlocks s)))))

/-- Observable steps of one `handleSubmit` run, in execution order. -/
inductive Ev where
  | rateLimitCheck
  | validateName
  | validateEmail
  | validateMessage
  | consentCheck
  | honeypotCheck
  | tokenAttach
  | transportCall
  | recordSub
  | tokenInit
deriving Repr, DecidableEq

/-- The page state `handleSubmit` reads and writes: the three validated
fields, the privacy checkbox, the honeypot input (`name="website"`), the
hidden CSRF field, `sessionStorage.csrf_token`, the parsed
`localStorage.form_submissions` array, the `form-message` box (alert class
and text) and the submit button's disabled flag. -/
structure PageState where
  nameField : FormField
  emailField : FormField
  messageField : FormField
  privacyChecked : Bool
  website : List Char
  csrfField : List Char
  sessionToken : Option (List Char)
  submissions : List Int
  formMessage : Option (List Char × List Char)
  submitDisabled : Bool
deriving Repr, DecidableEq

/-- Alert class `danger`. -/
def dangerTy : List Char := ("danger").data

/-- Alert class `success`. -/
def successTy : List Char := ("success").data

/-- Message shown when the privacy checkbox is unchecked. -/
def privacyMsg : List Char :=
  ("Please accept the privacy policy to continue.").data

/-- Message shown when the honeypot is non-empty. -/
def invalidSubMsg : List Char := ("Invalid submission detected.").data

/-- Message shown when some field is invalid. -/
def correctErrMsg : List Char :=
  ("Please correct the errors in the form.").data

/-- Success message. -/
def thankYouMsg : List Char :=
  ("Thank you for your message! I will get back to you soon.").data

/-- Transport-failure message. -/
def transportErrMsg : List Char :=
  ("An error occurred while sending your message. Please try again later.").data

/-- Clear a field's value and remove its validity classes (`form.reset()`
followed by the `is-valid`/`is-invalid` class sweep). -/
def clearField (f : FormField) : FormField :=
  { f with value := [], validCls := none }

/-- `form.reset()` plus removal of all validity classes on the success
path: field values and honeypot emptied, checkbox cleared, the hidden CSRF
input reverts to its (empty) markup default before `initCSRFToken` refills
it. -/
def formResetAndClear (st : PageState) : PageState :=
  { st with nameField := clearField st.nameField,
            emailField := clearField st.emailField,
            messageField := clearField st.messageField,
            privacyChecked := false,
            website := [],
            csrfField := [] }

/-- `handleSubmit` (contact-form.js lines 175–269).  `now` is `Date.now()`,
`fresh` the bytes `crypto.getRandomValues` would produce if a token is
generated, and `transportOk` whether the transport promise resolves
(`simulateAPICall` always resolves; the catch branch is kept for the
abstract transport boundary).  Returns the updated page state and the trace
of observable steps. -/
def handleSubmit (st : PageState) (now : Int) (fresh : List Nat)
    (transportOk : Bool) : PageState × List Ev :=
  let rl := checkRateLimit st.submissions now
  if rl.allowed = false then
    ({ st with formMessage := some (dangerTy, rl.message) }, [Ev.rateLimitCheck])
  else
    let pn := applyValidation FieldName.name st.nameField
    let pe := applyValidation FieldName.email st.emailField
    let pm := applyValidation FieldName.message st.messageField
    let st1 := { st with nameField := pn.1, emailField := pe.1,
                         messageField := pm.1 }
    let isFormValid := pn.2 && pe.2 && pm.2
    let st2 :=
      if st1.privacyChecked = false then
        { st1 with formMessage := some (dangerTy, privacyMsg) }
      else st1
    let isFormValid2 :=
      if st1.privacyChecked = false then false else isFormValid
    let evs := [Ev.rateLimitCheck, Ev.validateName, Ev.validateEmail,
                Ev.validateMessage, Ev.consentCheck, Ev.honeypotCheck]
    if jsTrim st2.website ≠ [] then
      ({ st2 with formMessage := some (dangerTy, invalidSubMsg) }, evs)
    else if isFormValid2 = false then
      ({ st2 with formMessage := some (dangerTy, correctErrMsg) }, evs)
    else
      let st3 := { st2 with submitDisabled := true }
      let evs2 := evs ++ [Ev.tokenAttach, Ev.transportCall]
      if transportOk then
        let st4 := { st3 with
          submissions := recordSubmission st3.submissions now,
          formMessage := some (successTy, thankYouMsg) }
        let st5 := formResetAndClear st4
        let tk := initCSRFToken st5.sessionToken fresh
        let st6 := { st5 with sessionToken := tk.1, csrfField := tk.2,
                              submitDisabled := false }
        (st6, evs2 ++ [Ev.recordSub, Ev.tokenInit])
      else
        ({ st3 with formMessage := some (dangerTy, transportErrMsg),
                    submitDisabled := false }, evs2)

/-- A field carrying a raw value and no validation state yet. -/
def mkField (v : List Char) : FormField :=
  { value := v, validCls := none, feedbackText := [], feedbackShown := false }

/-- The §8 scenario state: valid name, email and message, consent given,
honeypot empty, no prior submissions, an existing 3-character session
token. -/
def scenarioState : PageState :=
  { nameField := mkField ("John Doe").data,
    emailField := mkField ("john@example.com").data,
    messageField := mkField ("Hello, this is a test message.").data,
    privacyChecked := true,
    website := [],
    csrfField := ("abc").data,
    sessionToken := some ("abc").data,
    submissions := [],
    formMessage := none,
    submitDisabled := false }

/-- Spec wording of the name rule: trimmed length in `[2,100]` and every
character a letter, space (whitespace), hyphen or apostrophe. -/
def nameRuleSpec (raw : List Char) : Prop :=
  2 ≤ (jsTrim raw).length ∧ (jsTrim raw).length ≤ 100 ∧
    ∀ c ∈ jsTrim raw,
      isAsciiLetter c = true ∨ isJsWs c = true ∨ c = '-' ∨ c = apoChar

/-- Spec wording of the email rule: the trimmed value splits as
`local@domain.tld` — a nonempty non-whitespace/non-`@` part before the `@`,
then a nonempty such part, a dot, and a nonempty such part. -/
def emailRuleSpec (raw : List Char) : Prop :=
  ∃ a b c, jsTrim raw = a ++ '@' :: (b ++ '.' :: c) ∧
    a ≠ [] ∧ b ≠ [] ∧ c ≠ [] ∧
    (∀ x ∈ a, isEmailAtomChar x = true) ∧
    (∀ x ∈ b, isEmailAtomChar x = true) ∧
    (∀ x ∈ c, isEmailAtomChar x = true)

/-- Spec wording of the message rule: trimmed length in `[10,2000]`. -/
def messageRuleSpec (raw : List Char) : Prop :=
  10 ≤ (jsTrim raw).length ∧ (jsTrim raw).length ≤ 2000

/-- The five characters that must never appear raw in escaped output
(`<`, `>`, `"`, the apostrophe, `/`). -/
def isRawFive (c : Char) : Bool :=
  c = '<' || c = '>' || c = '"' || c = apoChar || c = '/'

/-- No character of `l` is one of the five forbidden raw characters. -/
def noRawFive (l : List Char) : Bool := l.all (fun c => !isRawFive c)

/-- Every `&` in `l` is the first character of one of the six entity
encodings emitted by `escapeHtml`. -/
def ampOnlyEntity : List Char → Bool
  | [] => true
  | c :: cs =>
      (if c = '&' then escEntities.any (fun e => e.isPrefixOf (c :: cs))
       else true) && ampOnlyEntity cs

/-- Honeypot-filled state with an invalid name (`"J"`), all other inputs
valid, consent given and an empty rate-limit store. -/
def botStateInvalidName : PageState :=
  { nameField := mkField ("J").data,
    emailField := mkField ("john@example.com").data,
    messageField := mkField ("Hello, this is a test message.").data,
    privacyChecked := true,
    website := ("http://spam.example").data,
    csrfField := ("abc").data,
    sessionToken := some ("abc").data,
    submissions := [],
    formMessage := none,
    submitDisabled := false }

/-- Honeypot-filled state with all fields valid, consent given and an
empty rate-limit store. -/
def botStateValidFields : PageState :=
  { nameField := mkField ("John Doe").data,
    emailField := mkField ("john@example.com").data,
    messageField := mkField ("Hello, this is a test message.").data,
    privacyChecked := true,
    website := ("http://spam.example").data,
    csrfField := ("def").data,
    sessionToken := some ("def").data,
    submissions := [],
    formMessage := none,
    submitDisabled := false }

/-- Honeypot-empty state whose message is too short (`"short"`), all other
inputs valid, consent given and an empty rate-limit store. -/
def shortMessageState : PageState :=
  { nameField := mkField ("John Doe").data,
    emailField := mkField ("john@example.com").data,
    messageField := mkField ("short").data,
    privacyChecked := true,
    website := [],
    csrfField := ("ghi").data,
    sessionToken := some ("ghi").data,
    submissions := [],
    formMessage := none,
    submitDisabled := false }

/-- C1: after a successful submission the code re-runs `initCSRFToken`,
which returns an existing token unchanged, so the persisted session token
after the success equals its value at submit time — the submission does
reach the success branch (`recordSub` and `tokenInit` both occur), yet no
rotation happens, contradicting the code's own `Generate new CSRF token`
comment and the spec. -/
theorem c1_success_keeps_token :
    (handleSubmit scenarioState 1000 [1, 2, 3] true).1.sessionToken
        = scenarioState.sessionToken
    ∧ Ev.recordSub ∈ (handleSubmit scenarioState 1000 [1, 2, 3] true).2
    ∧ Ev.tokenInit ∈ (handleSubmit scenarioState 1000 [1, 2, 3] true).2 := by
  decide

/-- C2 counterexample: a submit attempt with a non-empty honeypot and an
invalid name leaves the name field marked `is-invalid` with its inline
error text shown — a per-field validation error is surfaced during the
attempt, contrary to the claim. -/
theorem c2_counterexample :
    jsTrim botStateInvalidName.website ≠ []
    ∧ (handleSubmit botStateInvalidName 1000 [1, 2, 3] true).1.nameField.validCls
        = some false
    ∧ (handleSubmit botStateInvalidName 1000 [1, 2, 3] true).1.nameField.feedbackShown
        = true
    ∧ (handleSubmit botStateInvalidName 1000 [1, 2, 3] true).1.nameField.feedbackText
        = nameLenMsg := by
  decide

/-- C3 counterexample: a run with a non-empty honeypot produces the trace
rate-limit check, three field validations and consent check — and only then
the honeypot check; the first performed step is the rate-limit check, so
rate-limit evaluation and field validation both occur before the honeypot
check, contrary to the claimed order. -/
theorem c3_counterexample :
    (handleSubmit botStateValidFields 1000 [1, 2, 3] true).2
        = [Ev.rateLimitCheck, Ev.validateName, Ev.validateEmail,
           Ev.validateMessage, Ev.consentCheck, Ev.honeypotCheck]
    ∧ (handleSubmit botStateValidFields 1000 [1, 2, 3] true).2.head?
        = some Ev.rateLimitCheck := by
  decide

/-- C4 counterexample: three stored timestamps 10 ms in the future of the
check instant lie outside the trailing 3,600,000 ms window ending at `now`
(the claim would admit), yet `checkRateLimit` counts them (`now - t < oneHour`
has no lower bound on `now - t`) and denies. -/
theorem c4_counterexample :
    (checkRateLimit [1000010, 1000010, 1000010] 1000000).allowed = false
    ∧ ([1000010, 1000010, 1000010].filter
        (fun t => decide ((1000000 : Int) - oneHour ≤ t ∧ t ≤ 1000000))).length
        = 0 := by
  decide

/-- C5 counterexample: from a prior store of length 11, `recordSubmission`
appends and then evicts only one entry (`shift()` runs once, not until the
length is 10), leaving length 11 where the claim requires
`min(previous_length + 1, 10) = 10`. -/
theorem c5_counterexample :
    (recordSubmission (List.replicate 11 (0 : Int)) 5).length = 11
    ∧ min (11 + 1) 10 = 10 := by
  decide

/-- C6 counterexample: the input `"&"` contains one of the listed
characters, and the escaped output `"&amp;"` still contains the raw
character `&` (as the opening of the entity), so the output is not free of
all six raw characters as claimed. -/
theorem c6_counterexample :
    '&' ∈ (['&'] : List Char) ∧ '&' ∈ escapeHtml (JsVal.str ['&']) := by
  decide

/-- C10: `sanitizeHtml` guards `typeof html !== 'string'` and returns the
empty string on every non-string input, making it total at its public
interface. -/
theorem c10_sanitize_nonstring_empty : sanitizeHtml JsVal.nonString = [] :=
  rfl

/-- `Math.min` of a list is a lower bound for its members. -/
theorem jsMathMin_le {l : List Int} {t : Int} (ht : t ∈ l) : jsMathMin l ≤ t := by
  induction l with
  | nil => cases ht
  | cons x xs ih =>
      cases xs with
      | nil =>
          have hx : t = x := by simpa using ht
          subst hx
          simp [jsMathMin]
      | cons y ys =>
          rcases List.mem_cons.mp ht with h | h
          · subst h; exact min_le_left _ _
          · exact le_trans (min_le_right _ _) (ih h)

/-- `Math.min` of a nonempty list is one of its members. -/
theorem jsMathMin_mem {l : List Int} (h : l ≠ []) : jsMathMin l ∈ l := by
  induction l with
  | nil => exact absurd rfl h
  | cons x xs ih =>
      cases xs with
      | nil => simp [jsMathMin]
      | cons y ys =>
          rcases le_total x (jsMathMin (y :: ys)) with hle | hle
          · simp [jsMathMin, min_eq_left hle]
          · have hm := ih (by simp)
            simp only [jsMathMin, min_eq_right hle]
            exact List.mem_cons_of_mem _ hm

/-- `Math.ceil(a / 60000)` is positive when `a` is. -/
theorem jsMathCeilDiv_pos {a : Int} (h : 0 < a) : 0 < jsMathCeilDiv a 60000 := by
  unfold jsMathCeilDiv
  rw [Int.fdiv_eq_ediv _ (by norm_num)]
  omega

/-- C4 (amended): `checkRateLimit` admits exactly when fewer than 3 stored
entries satisfy `now - entry < 3,600,000` (entries strictly newer than
`now - 3,600,000`, with no upper bound at `now`); on denial the retry time
is `oldest + 3,600,000 - now` computed from the smallest qualifying entry,
it is positive, and the displayed message carries it rounded up to the
nearest minute. -/
theorem c4_rate_limit_window (subs : List Int) (now : Int) :
    ((checkRateLimit subs now).allowed = true ↔
      (subs.filter (fun t => decide (now - t < oneHour))).length < 3)
    ∧ ((checkRateLimit subs now).allowed = false →
        jsMathMin (subs.filter (fun t => decide (now - t < oneHour)))
            ∈ subs.filter (fun t => decide (now - t < oneHour))
        ∧ 0 < jsMathMin (subs.filter (fun t => decide (now - t < oneHour)))
              + oneHour - now
        ∧ 0 < jsMathCeilDiv
              (jsMathMin (subs.filter (fun t => decide (now - t < oneHour)))
                + oneHour - now) 60000
        ∧ (checkRateLimit subs now).message
            = rateLimitMsg (jsMathCeilDiv
                (jsMathMin (subs.filter (fun t => decide (now - t < oneHour)))
                  + oneHour - now) 60000)) := by
  have hck : checkRateLimit subs now =
      if (subs.filter (fun t => decide (now - t < oneHour))).length ≥ 3 then
        { allowed := false,
          message := rateLimitMsg (jsMathCeilDiv
            (jsMathMin (subs.filter (fun t => decide (now - t < oneHour)))
              + oneHour - now) 60000) }
      else { allowed := true, message := [] } := rfl
  by_cases h : (subs.filter (fun t => decide (now - t < oneHour))).length ≥ 3
  · have hne : subs.filter (fun t => decide (now - t < oneHour)) ≠ [] := by
      intro he
      rw [he] at h
      simp at h
    have hmem := jsMathMin_mem hne
    have hlt : now - jsMathMin (subs.filter (fun t => decide (now - t < oneHour)))
        < oneHour := by
      have hf := List.of_mem_filter hmem
      simpa using hf
    have hpos : 0 < jsMathMin (subs.filter (fun t => decide (now - t < oneHour)))
        + oneHour - now := by omega
    rw [hck, if_pos h]
    constructor
    · constructor
      · intro hfalse
        simp at hfalse
      · intro hlt3
        omega
    · intro _
      exact ⟨hmem, hpos, jsMathCeilDiv_pos hpos, rfl⟩
  · rw [hck, if_neg h]
    constructor
    · constructor
      · intro _
        omega
      · intro _
        rfl
    · intro hc
      simp at hc

/-- C4 witness: with three stored timestamps 1–3 seconds old and a fourth
attempt at `now = 1000000`, the amended theorem applies: the check denies
and the retry time and its rounded-up minute display are positive. -/
theorem c4_rate_limit_window_witness :
    0 < jsMathMin ([996997, 996998, 996999].filter
          (fun t => decide ((1000000 : Int) - t < oneHour))) + oneHour - 1000000
    ∧ 0 < jsMathCeilDiv
          (jsMathMin ([996997, 996998, 996999].filter
              (fun t => decide ((1000000 : Int) - t < oneHour)))
            + oneHour - 1000000) 60000 := by
  have h := (c4_rate_limit_window [996997, 996998, 996999] 1000000).2 (by decide)
  exact ⟨h.2.1, h.2.2.1⟩

/-- C5 (amended): `recordSubmission` appends `now` and, when the length
then exceeds 10, evicts exactly one entry from the front; from any prior
store satisfying the length-≤-10 invariant, the resulting length is
`min(previous_length + 1, 10)`, the evicted entry (when the store was
full) is the oldest, and the invariant is preserved. -/
theorem c5_record_submission_bound (subs : List Int) (now : Int)
    (h : subs.length ≤ 10) :
    (recordSubmission subs now).length = min (subs.length + 1) 10
    ∧ recordSubmission subs now
        = (if subs.length = 10 then subs.drop 1 ++ [now] else subs ++ [now])
    ∧ (recordSubmission subs now).length ≤ 10 := by
  have hrec : recordSubmission subs now =
      if (subs ++ [now]).length > 10 then (subs ++ [now]).drop 1
      else subs ++ [now] := rfl
  by_cases h10 : subs.length = 10
  · have hgt : (subs ++ [now]).length > 10 := by simp [h10]
    have hdrop : (subs ++ [now]).drop 1 = subs.drop 1 ++ [now] :=
      List.drop_append_of_le_length (by omega)
    rw [hrec, if_pos hgt, hdrop]
    refine ⟨by simp [h10], by rw [if_pos h10], by simp [h10]⟩
  · have hlt : subs.length < 10 := by omega
    have hng : ¬((subs ++ [now]).length > 10) := by simp; omega
    rw [hrec, if_neg hng]
    refine ⟨by simp; omega, by rw [if_neg h10], by simp; omega⟩

/-- C5 witness: recording an 11th submission into a full (length-10) store
drops the oldest entry and keeps the length at 10. -/
theorem c5_record_submission_bound_witness :
    (recordSubmission [1, 2, 3, 4, 5, 6, 7, 8, 9, 10] (11 : Int)).length
        = min (([1, 2, 3, 4, 5, 6, 7, 8, 9, 10] : List Int).length + 1) 10
    ∧ recordSubmission [1, 2, 3, 4, 5, 6, 7, 8, 9, 10] (11 : Int)
        = (if ([1, 2, 3, 4, 5, 6, 7, 8, 9, 10] : List Int).length = 10 then
            ([1, 2, 3, 4, 5, 6, 7, 8, 9, 10] : List Int).drop 1 ++ [11]
          else [1, 2, 3, 4, 5, 6, 7, 8, 9, 10] ++ [11]) :=
  ⟨(c5_record_submission_bound [1, 2, 3, 4, 5, 6, 7, 8, 9, 10] 11 (by decide)).1,
   (c5_record_submission_bound [1, 2, 3, 4, 5, 6, 7, 8, 9, 10] 11 (by decide)).2.1⟩

theorem applyValidation_snd (fn : FieldName) (f : FormField) :
    (applyValidation fn f).2 = (validateValue fn f.value).1 := by
  unfold applyValidation
  by_cases h : (validateValue fn f.value).1 <;> simp [h]

theorem handleSubmit_denied (st : PageState) (now : Int) (fresh : List Nat)
    (ok : Bool) (h : (checkRateLimit st.submissions now).allowed = false) :
    handleSubmit st now fresh ok =
      ({ st with
          formMessage := some (dangerTy, (checkRateLimit st.submissions now).message) },
        [Ev.rateLimitCheck]) := by
  unfold handleSubmit
  simp [h]

theorem handleSubmit_no_transport (st : PageState) (now : Int)
    (fresh : List Nat) (ok : Bool)
    (hallow : (checkRateLimit st.submissions now).allowed = true)
    (hcase : jsTrim st.website ≠ [] ∨
      ((validateValue FieldName.name st.nameField.value).1 &&
       (validateValue FieldName.email st.emailField.value).1 &&
       (validateValue FieldName.message st.messageField.value).1 &&
       st.privacyChecked) = false) :
    (handleSubmit st now fresh ok).1.submissions = st.submissions
    ∧ (handleSubmit st now fresh ok).1.sessionToken = st.sessionToken
    ∧ (handleSubmit st now fresh ok).2 =
        [Ev.rateLimitCheck, Ev.validateName, Ev.validateEmail,
         Ev.validateMessage, Ev.consentCheck, Ev.honeypotCheck] := by
  unfold handleSubmit
  by_cases hp : st.privacyChecked
  · by_cases hh : jsTrim st.website = []
    · have hv : ((validateValue FieldName.name st.nameField.value).1 &&
          (validateValue FieldName.email st.emailField.value).1 &&
          (validateValue FieldName.message st.messageField.value).1) = false := by
        rcases hcase with hc | hc
        · exact absurd hh hc
        · simpa [hp] using hc
      simp [hallow, hp, hh, applyValidation_snd, hv]
    · simp [hallow, hp, hh, applyValidation_snd]
  · by_cases hh : jsTrim st.website = []
    · simp [hallow, hp, hh, applyValidation_snd]
    · simp [hallow, hp, hh, applyValidation_snd]

/-- C2 (amended): when the honeypot's trimmed value is non-empty and the
rate limiter admits, the attempt is voided with no persistent state
change — no rate-limit record is added, the session token is unchanged,
and no transport call is made; however, the honeypot check runs only after
the rate-limit check and field validation, so field validity classes and
inline errors are updated first (and a rate-limited attempt is instead
rejected by the rate limiter before the honeypot is consulted). -/
theorem c2_honeypot_frame (st : PageState) (now : Int) (fresh : List Nat)
    (ok : Bool) (hh : jsTrim st.website ≠ [])
    (hallow : (checkRateLimit st.submissions now).allowed = true) :
    (handleSubmit st now fresh ok).1.submissions = st.submissions
    ∧ (handleSubmit st now fresh ok).1.sessionToken = st.sessionToken
    ∧ Ev.transportCall ∉ (handleSubmit st now fresh ok).2
    ∧ Ev.recordSub ∉ (handleSubmit st now fresh ok).2 := by
  obtain ⟨h1, h2, h3⟩ :=
    handleSubmit_no_transport st now fresh ok hallow (Or.inl hh)
  refine ⟨h1, h2, ?_, ?_⟩ <;> rw [h3] <;> decide

/-- C2 witness: the amended theorem applied to the honeypot-filled state
with an invalid name. -/
theorem c2_honeypot_frame_witness :
    (handleSubmit botStateInvalidName 1000 [1, 2, 3] true).1.submissions
        = botStateInvalidName.submissions
    ∧ (handleSubmit botStateInvalidName 1000 [1, 2, 3] true).1.sessionToken
        = botStateInvalidName.sessionToken
    ∧ Ev.transportCall ∉ (handleSubmit botStateInvalidName 1000 [1, 2, 3] true).2
    ∧ Ev.recordSub ∉ (handleSubmit botStateInvalidName 1000 [1, 2, 3] true).2 :=
  c2_honeypot_frame botStateInvalidName 1000 [1, 2, 3] true (by decide) (by decide)

/-- C3 (amended): every `handleSubmit` run follows the order rate-limit
check → field validation (name, email, message) → consent check → honeypot
check → token attachment → network call → record → token re-init, stopping
at the stage that rejects: the trace is one of the four prefixes below.
In particular the rate-limit check and field validation always precede the
honeypot check. -/
theorem c3_pipeline_order (st : PageState) (now : Int) (fresh : List Nat)
    (ok : Bool) :
    (handleSubmit st now fresh ok).2 = [Ev.rateLimitCheck]
    ∨ (handleSubmit st now fresh ok).2 =
        [Ev.rateLimitCheck, Ev.validateName, Ev.validateEmail,
         Ev.validateMessage, Ev.consentCheck, Ev.honeypotCheck]
    ∨ (handleSubmit st now fresh ok).2 =
        [Ev.rateLimitCheck, Ev.validateName, Ev.validateEmail,
         Ev.validateMessage, Ev.consentCheck, Ev.honeypotCheck,
         Ev.tokenAttach, Ev.transportCall]
    ∨ (handleSubmit st now fresh ok).2 =
        [Ev.rateLimitCheck, Ev.validateName, Ev.validateEmail,
         Ev.validateMessage, Ev.consentCheck, Ev.honeypotCheck,
         Ev.tokenAttach, Ev.transportCall, Ev.recordSub, Ev.tokenInit] := by
  by_cases hA : (checkRateLimit st.submissions now).allowed = true
  · unfold handleSubmit
    by_cases hp : st.privacyChecked
    · by_cases hh : jsTrim st.website = []
      · cases hn : (validateValue FieldName.name st.nameField.value).1 <;>
          cases he : (validateValue FieldName.email st.emailField.value).1 <;>
          cases hm : (validateValue FieldName.message st.messageField.value).1 <;>
          cases ok <;>
          simp [hA, hh, hp, applyValidation_snd, hn, he, hm]
      · simp [hA, hh, hp, applyValidation_snd]
    · simp [hA, hp, applyValidation_snd]
      by_cases hh : jsTrim st.website = [] <;> simp [hh]
  · have hA2 : (checkRateLimit st.submissions now).allowed = false := by
      revert hA
      cases (checkRateLimit st.submissions now).allowed <;> simp
    rw [handleSubmit_denied st now fresh ok hA2]
    left
    rfl

/-- C9: a submit attempt that passes the rate-limit and honeypot checks
but fails field validation (name, email or message invalid, or consent
unchecked) is atomic with respect to persistent state: no transport call
occurs, the durable submission store is unchanged, and the persisted
session token is unchanged. -/
theorem c9_validation_failure_atomic (st : PageState) (now : Int)
    (fresh : List Nat) (ok : Bool)
    (hallow : (checkRateLimit st.submissions now).allowed = true)
    (hh : jsTrim st.website = [])
    (hv : ((validateValue FieldName.name st.nameField.value).1 &&
           (validateValue FieldName.email st.emailField.value).1 &&
           (validateValue FieldName.message st.messageField.value).1 &&
           st.privacyChecked) = false) :
    (handleSubmit st now fresh ok).1.submissions = st.submissions
    ∧ (handleSubmit st now fresh ok).1.sessionToken = st.sessionToken
    ∧ Ev.transportCall ∉ (handleSubmit st now fresh ok).2
    ∧ Ev.recordSub ∉ (handleSubmit st now fresh ok).2 := by
  obtain ⟨h1, h2, h3⟩ :=
    handleSubmit_no_transport st now fresh ok hallow (Or.inr hv)
  refine ⟨h1, h2, ?_, ?_⟩ <;> rw [h3] <;> decide

/-- C9 witness: the theorem applied to the honeypot-empty state whose
message is too short. -/
theorem c9_validation_failure_atomic_witness :
    (handleSubmit shortMessageState 1000 [1, 2, 3] true).1.submissions
        = shortMessageState.submissions
    ∧ (handleSubmit shortMessageState 1000 [1, 2, 3] true).1.sessionToken
        = shortMessageState.sessionToken
    ∧ Ev.transportCall ∉ (handleSubmit shortMessageState 1000 [1, 2, 3] true).2
    ∧ Ev.recordSub ∉ (handleSubmit shortMessageState 1000 [1, 2, 3] true).2 :=
  c9_validation_failure_atomic shortMessageState 1000 [1, 2, 3] true
    (by decide) (by decide) (by decide)

set_option maxRecDepth 4000 in
/-- Each byte below 256 encodes to exactly two hex characters. -/
theorem hexByte_length : ∀ b < 256, (padStart2 (natToHex b)).length = 2 := by
  decide

set_option maxRecDepth 4000 in
/-- Decoding inverts the two-character hex encoding of a byte. -/
theorem hexByte_roundtrip : ∀ b < 256,
    hexPairVal (padStart2 (natToHex b)) = b := by
  decide

/-- A padded hex block is never empty. -/
theorem padStart2_pos (l : List Char) : 0 < (padStart2 l).length := by
  unfold padStart2
  split
  · omega
  · simp
    omega

/-- `generateCSRFToken` unfolds one byte at a time. -/
theorem generateCSRFToken_cons (b : Nat) (bs : List Nat) :
    generateCSRFToken (b :: bs)
      = padStart2 (natToHex b) ++ generateCSRFToken bs := by
  simp [generateCSRFToken]

/-- A token generated from at least one byte is nonempty. -/
theorem generateCSRFToken_ne_nil {bs : List Nat} (h : bs ≠ []) :
    generateCSRFToken bs ≠ [] := by
  cases bs with
  | nil => exact absurd rfl h
  | cons b tl =>
      rw [generateCSRFToken_cons]
      intro he
      have hp := padStart2_pos (natToHex b)
      rw [List.append_eq_nil] at he
      rw [he.1] at hp
      simp at hp

/-- A token generated from bytes below 256 has two characters per byte. -/
theorem generateCSRFToken_length : ∀ bs : List Nat,
    (∀ b ∈ bs, b < 256) → (generateCSRFToken bs).length = 2 * bs.length := by
  intro bs
  induction bs with
  | nil => intro _; rfl
  | cons b tl ih =>
      intro h
      rw [generateCSRFToken_cons]
      have hb := hexByte_length b (h b (by simp))
      have ht := ih (fun x hx => h x (by simp [hx]))
      simp [hb, ht]
      omega

/-- Hex encoding is injective on byte lists of equal length. -/
theorem generateCSRFToken_inj : ∀ bs1 bs2 : List Nat,
    (∀ b ∈ bs1, b < 256) → (∀ b ∈ bs2, b < 256) → bs1.length = bs2.length →
    generateCSRFToken bs1 = generateCSRFToken bs2 → bs1 = bs2 := by
  intro bs1
  induction bs1 with
  | nil =>
      intro bs2 _ _ hlen _
      cases bs2 with
      | nil => rfl
      | cons b tl => simp at hlen
  | cons b1 tl1 ih =>
      intro bs2 h1 h2 hlen heq
      cases bs2 with
      | nil => simp at hlen
      | cons b2 tl2 =>
          rw [generateCSRFToken_cons, generateCSRFToken_cons] at heq
          have hb1 := h1 b1 (by simp)
          have hb2 := h2 b2 (by simp)
          have hlen2 : (padStart2 (natToHex b1)).length
              = (padStart2 (natToHex b2)).length := by
            rw [hexByte_length b1 hb1, hexByte_length b2 hb2]
          obtain ⟨hpre, hsuf⟩ := List.append_inj heq hlen2
          have hb : b1 = b2 := by
            have := congrArg hexPairVal hpre
            rwa [hexByte_roundtrip b1 hb1, hexByte_roundtrip b2 hb2] at this
          have htl : tl1 = tl2 :=
            ih tl2 (fun x hx => h1 x (by simp [hx]))
              (fun x hx => h2 x (by simp [hx])) (by simpa using hlen) hsuf
          rw [hb, htl]

/-- C7: `getOrCreateToken` (the store effect of `initCSRFToken`) is
idempotent — a second call without an intervening rotation returns the
same token and leaves the store unchanged; `rotateToken` (modelled from the
spec, absent from the code) persists exactly the token it returns, of
length 64 for 32 random bytes; and distinct 32-byte draws always produce
distinct tokens (the exact form of "differs with overwhelming probability":
a collision needs the random source to repeat). -/
theorem c7_token_roundtrip (sess : Option (List Char)) (fresh1 fresh2 : List Nat)
    (h1 : fresh1 ≠ []) :
    ((initCSRFToken (initCSRFToken sess fresh1).1 fresh2).2
        = (initCSRFToken sess fresh1).2
      ∧ (initCSRFToken (initCSRFToken sess fresh1).1 fresh2).1
        = (initCSRFToken sess fresh1).1)
    ∧ (∀ fresh : List Nat, (∀ b ∈ fresh, b < 256) → fresh.length = 32 →
        (rotateToken fresh).2.length = 64
        ∧ (rotateToken fresh).1 = some (rotateToken fresh).2)
    ∧ (∀ f1 f2 : List Nat, (∀ b ∈ f1, b < 256) → (∀ b ∈ f2, b < 256) →
        f1.length = f2.length → f1 ≠ f2 →
        (rotateToken f1).2 ≠ (rotateToken f2).2) := by
  refine ⟨?_, ?_, ?_⟩
  · have hne := generateCSRFToken_ne_nil h1
    cases sess with
    | none => simp [initCSRFToken, hne]
    | some t =>
        by_cases ht : t = []
        · simp [initCSRFToken, ht, hne]
        · simp [initCSRFToken, ht]
  · intro fresh hb hlen
    constructor
    · show (generateCSRFToken fresh).length = 64
      rw [generateCSRFToken_length fresh hb, hlen]
    · rfl
  · intro f1 f2 hb1 hb2 hlen hne heq
    exact hne (generateCSRFToken_inj f1 f2 hb1 hb2 hlen heq)

/-- C7 witness: concrete instantiation — an existing one-byte-generated
token survives a second `initCSRFToken` call, a 32-byte rotation yields a
64-character token, and two distinct 32-byte draws yield distinct tokens. -/
theorem c7_token_roundtrip_witness :
    (initCSRFToken (initCSRFToken none [1] ).1 [2]).2 = (initCSRFToken none [1]).2
    ∧ (rotateToken (List.replicate 32 0)).2.length = 64
    ∧ (rotateToken (List.replicate 32 0)).2 ≠ (rotateToken (List.replicate 32 1)).2 :=
  ⟨((c7_token_roundtrip none [1] [2] (by decide)).1).1,
   ((c7_token_roundtrip none [1] [2] (by decide)).2.1 (List.replicate 32 0)
      (by decide) (by decide)).1,
   (c7_token_roundtrip none [1] [2] (by decide)).2.2 (List.replicate 32 0)
      (List.replicate 32 1) (by decide) (by decide) (by decide) (by decide)⟩

/-- `escapeHtml` on a cons cell. -/
theorem escapeHtml_cons (c : Char) (s : List Char) :
    escapeHtml (JsVal.str (c :: s)) = escChar c ++ escapeHtml (JsVal.str s) := by
  simp [escapeHtml]

/-- `noRawFive` distributes over append. -/
theorem noRawFive_append (a b : List Char) :
    noRawFive (a ++ b) = (noRawFive a && noRawFive b) := by
  simp [noRawFive]

/-- No single-character replacement emits a forbidden raw character. -/
theorem escChar_noRawFive (c : Char) : noRawFive (escChar c) = true := by
  unfold escChar
  by_cases h1 : c = '&'
  · simp [h1]
    decide
  by_cases h2 : c = '<'
  · simp [h1, h2]
    decide
  by_cases h3 : c = '>'
  · simp [h1, h2, h3]
    decide
  by_cases h4 : c = '"'
  · simp [h1, h2, h3, h4]
    decide
  by_cases h5 : c = apoChar
  · simp [h1, h2, h3, h4, h5]
    decide
  by_cases h6 : c = '/'
  · simp [h1, h2, h3, h4, h5, h6]
    decide
  simp [h1, h2, h3, h4, h5, h6, noRawFive, isRawFive]

/-- Prepending one character replacement preserves the `&`-only-at-entity
property: entities start with `&`, contain no other `&`, and unescaped
characters are never `&`. -/
theorem ampOnlyEntity_escChar (c : Char) (l : List Char) :
    ampOnlyEntity (escChar c ++ l) = ampOnlyEntity l := by
  unfold escChar
  by_cases h1 : c = '&'
  · simp [h1, ampEntity, ampOnlyEntity]
    intro _
    exact ⟨ampEntity, by simp [escEntities],
      by simpa [ampEntity] using List.prefix_append ampEntity l⟩
  by_cases h2 : c = '<'
  · simp [h1, h2, ltEntity, ampOnlyEntity]
    intro _
    exact ⟨ltEntity, by simp [escEntities],
      by simpa [ltEntity] using List.prefix_append ltEntity l⟩
  by_cases h3 : c = '>'
  · simp [h1, h2, h3, gtEntity, ampOnlyEntity]
    intro _
    exact ⟨gtEntity, by simp [escEntities],
      by simpa [gtEntity] using List.prefix_append gtEntity l⟩
  by_cases h4 : c = '"'
  · simp [h1, h2, h3, h4, quotEntity, ampOnlyEntity]
    intro _
    exact ⟨quotEntity, by simp [escEntities],
      by simpa [quotEntity] using List.prefix_append quotEntity l⟩
  by_cases h5 : c = apoChar
  · simp [h1, h2, h3, h4, h5, aposEntity, ampOnlyEntity]
    intro _
    exact ⟨aposEntity, by simp [escEntities],
      by simpa [aposEntity] using List.prefix_append aposEntity l⟩
  by_cases h6 : c = '/'
  · simp [h1, h2, h3, h4, h5, h6, slashEntity, ampOnlyEntity]
    intro _
    exact ⟨slashEntity, by simp [escEntities],
      by simpa [slashEntity] using List.prefix_append slashEntity l⟩
  simp [h1, h2, h3, h4, h5, h6, ampOnlyEntity]

/-- C6 (amended): for every string input, the escaped output contains none
of the raw characters `<`, `>`, `"`, `'`, `/`, and every `&` in the output
is the opening character of one of the six emitted entities (so all six
source characters, `&` included, are mapped to entities, and only entity
encodings introduce `&`); for every non-string input `escapeHtml` returns
the empty string. -/
theorem c6_escape_no_raw (s : List Char) :
    (noRawFive (escapeHtml (JsVal.str s)) = true
      ∧ ampOnlyEntity (escapeHtml (JsVal.str s)) = true)
    ∧ escapeHtml JsVal.nonString = [] := by
  refine ⟨?_, rfl⟩
  induction s with
  | nil => exact ⟨rfl, rfl⟩
  | cons c cs ih =>
      rw [escapeHtml_cons]
      constructor
      · rw [noRawFive_append, escChar_noRawFive, ih.1]
        rfl
      · rw [ampOnlyEntity_escChar]
        exact ih.2

/-- Characterization of the first-`@` split. -/
theorem emailLocalSplit_some : ∀ s a rest : List Char,
    emailLocalSplit s = some (a, rest) ↔ (s = a ++ '@' :: rest ∧ '@' ∉ a) := by
  intro s
  induction s with
  | nil =>
      intro a rest
      constructor
      · intro h
        simp [emailLocalSplit] at h
      · intro h
        exact absurd h.1 (by simp)
  | cons c cs ih =>
      intro a rest
      by_cases hc : c = '@'
      · subst hc
        constructor
        · intro h
          simp [emailLocalSplit] at h
          obtain ⟨ha, hcs⟩ := h
          subst ha
          subst hcs
          exact ⟨by simp, by simp⟩
        · rintro ⟨hs, hmem⟩
          cases a with
          | nil =>
              simp at hs
              simp [emailLocalSplit, hs]
          | cons a0 a1 =>
              have ha0 : '@' = a0 := by
                simpa using congrArg List.head? hs
              exact absurd (by simp [← ha0]) hmem
      · constructor
        · intro h
          have h2 : (emailLocalSplit cs).map (fun p => (c :: p.1, p.2))
              = some (a, rest) := by
            simpa [emailLocalSplit, hc] using h
          rw [Option.map_eq_some'] at h2
          obtain ⟨p, hsp, heq⟩ := h2
          obtain ⟨q1, q2⟩ := p
          simp at heq
          obtain ⟨ha, hr⟩ := heq
          obtain ⟨hcs, hnm⟩ := (ih q1 q2).mp hsp
          subst ha
          subst hr
          exact ⟨by simp [hcs], by simp [hnm, Ne.symm hc]⟩
        · rintro ⟨hs, hmem⟩
          cases a with
          | nil =>
              simp at hs
              exact absurd hs.1 hc
          | cons a0 a1 =>
              simp at hs
              obtain ⟨ha0, hcs⟩ := hs
              have hnm : '@' ∉ a1 := fun hx => hmem (by simp [hx])
              have hsp := (ih a1 rest).mpr ⟨hcs, hnm⟩
              subst ha0
              simp [emailLocalSplit, hc, hsp]

/-- `dotNotLast` holds exactly when a `.` occurs before the last position. -/
theorem dotNotLast_iff : ∀ l : List Char,
    dotNotLast l = true ↔ ∃ p q, l = p ++ '.' :: q ∧ q ≠ [] := by
  intro l
  induction l with
  | nil =>
      constructor
      · intro h
        simp [dotNotLast] at h
      · rintro ⟨p, q, hl, _⟩
        exact absurd hl.symm (by simp)
  | cons c cs ih =>
      cases cs with
      | nil =>
          constructor
          · intro h
            simp [dotNotLast] at h
          · rintro ⟨p, q, hl, hq⟩
            have hlen := congrArg List.length hl
            simp at hlen
            cases q with
            | nil => exact absurd rfl hq
            | cons _ _ => simp at hlen; omega
      | cons d ds =>
          constructor
          · intro h
            have h2 : c = '.' ∨ dotNotLast (d :: ds) = true := by
              simpa [dotNotLast] using h
            rcases h2 with hd | hd
            · exact ⟨[], d :: ds, by simp [hd], by simp⟩
            · obtain ⟨p, q, hl, hq⟩ := ih.mp hd
              exact ⟨c :: p, q, by simp [hl], hq⟩
          · rintro ⟨p, q, hl, hq⟩
            cases p with
            | nil =>
                simp at hl
                show (decide (c = '.') || dotNotLast (d :: ds)) = true
                simp [hl.1]
            | cons p0 p1 =>
                simp at hl
                have hdn : dotNotLast (d :: ds) = true :=
                  ih.mpr ⟨p1, q, hl.2, hq⟩
                show (decide (c = '.') || dotNotLast (d :: ds)) = true
                simp [hdn]

/-- The email regex accepts exactly the `local@domain.tld` split shape. -/
theorem emailRegexTest_iff (v : List Char) :
    emailRegexTest v = true ↔
      (∃ a b c, v = a ++ '@' :: (b ++ '.' :: c) ∧ a ≠ [] ∧ b ≠ [] ∧ c ≠ [] ∧
        (∀ x ∈ a, isEmailAtomChar x = true) ∧
        (∀ x ∈ b, isEmailAtomChar x = true) ∧
        (∀ x ∈ c, isEmailAtomChar x = true)) := by
  unfold emailRegexTest
  cases hsp : emailLocalSplit v with
  | none =>
      constructor
      · intro h
        simp at h
      · rintro ⟨a, b, c, hv, ha, hb, hc, hA, hB, hC⟩
        have hnm : '@' ∉ a := by
          intro hx
          have := hA '@' hx
          simp [isEmailAtomChar] at this
        have hcontra := (emailLocalSplit_some v a (b ++ '.' :: c)).mpr ⟨hv, hnm⟩
        rw [hsp] at hcontra
        cases hcontra
  | some p =>
      obtain ⟨a0, rest0⟩ := p
      obtain ⟨hv0, hnm0⟩ := (emailLocalSplit_some v a0 rest0).mp hsp
      constructor
      · intro h
        dsimp only at h
        simp only [Bool.and_eq_true] at h
        obtain ⟨⟨⟨hne, hallA⟩, hallR⟩, hmatch⟩ := h
        cases rest0 with
        | nil => simp at hmatch
        | cons r0 l =>
            obtain ⟨p2, q, hl, hq⟩ := (dotNotLast_iff l).mp hmatch
            refine ⟨a0, r0 :: p2, q, ?_, by simpa using hne, by simp, hq,
              fun x hx => List.all_eq_true.mp hallA x hx, ?_, ?_⟩
            · rw [hv0, hl]
              simp
            · intro x hx
              apply List.all_eq_true.mp hallR
              rcases List.mem_cons.mp hx with h1 | h1
              · simp [h1]
              · exact List.mem_cons_of_mem _
                  (by rw [hl]; exact List.mem_append_left _ h1)
            · intro x hx
              apply List.all_eq_true.mp hallR
              exact List.mem_cons_of_mem _
                (by rw [hl]; exact List.mem_append_right _ (by simp [hx]))
      · rintro ⟨a, b, c, hv, ha, hb, hc, hA, hB, hC⟩
        have hnm : '@' ∉ a := by
          intro hx
          have := hA '@' hx
          simp [isEmailAtomChar] at this
        have h2 := (emailLocalSplit_some v a (b ++ '.' :: c)).mpr ⟨hv, hnm⟩
        rw [hsp] at h2
        simp only [Option.some.injEq, Prod.mk.injEq] at h2
        obtain ⟨ha0, hr0⟩ := h2
        subst ha0
        subst hr0
        cases b with
        | nil => exact absurd rfl hb
        | cons b0 b1 =>
            dsimp only
            simp only [Bool.and_eq_true]
            refine ⟨⟨⟨by simpa using ha, List.all_eq_true.mpr hA⟩, ?_⟩, ?_⟩
            · apply List.all_eq_true.mpr
              intro x hx
              rcases List.mem_cons.mp hx with h1 | h1
              · exact hB x (by simp [h1])
              · rcases List.mem_append.mp h1 with h2 | h2
                · exact hB x (by simp [h2])
                · rcases List.mem_cons.mp h2 with h3 | h3
                  · subst h3
                    decide
                  · exact hC x h3
            · show dotNotLast (b1 ++ '.' :: c) = true
              exact (dotNotLast_iff _).mpr ⟨b1, c, rfl, hc⟩

/-- C8: `validateField`'s decision agrees with the spec's rule table —
name: trimmed length in [2,100] with letters, whitespace, hyphens and
apostrophes only; email: trimmed value of `local@domain.tld` shape built
from nonempty non-whitespace/non-`@` segments; message: trimmed length in
[10,2000]. -/
theorem c8_field_rules (raw : List Char) :
    ((validateValue FieldName.name raw).1 = true ↔ nameRuleSpec raw)
    ∧ ((validateValue FieldName.email raw).1 = true ↔ emailRuleSpec raw)
    ∧ ((validateValue FieldName.message raw).1 = true ↔ messageRuleSpec raw) := by
  refine ⟨?_, ?_, ?_⟩
  · unfold validateValue nameRuleSpec
    dsimp only
    by_cases h1 : (decide ((jsTrim raw).length < 2)
        || decide ((jsTrim raw).length > 100)) = true
    · rw [if_pos h1]
      simp only [Bool.or_eq_true, decide_eq_true_iff] at h1
      constructor
      · intro hf
        exact absurd hf (by simp)
      · rintro ⟨hA, hB, _⟩
        omega
    · simp only [Bool.or_eq_true, decide_eq_true_iff, not_or, not_lt] at h1
      rw [if_neg (by simp; omega)]
      by_cases h2 : nameRegexTest (jsTrim raw) = true
      · rw [if_neg (by simp [h2])]
        constructor
        · intro _
          refine ⟨by omega, by omega, ?_⟩
          intro x hx
          have h2b : (!(jsTrim raw).isEmpty && (jsTrim raw).all isNameChar)
              = true := h2
          have hall : (jsTrim raw).all isNameChar = true := by
            cases hA : (jsTrim raw).all isNameChar
            · rw [hA] at h2b
              simp at h2b
            · rfl
          have hx2 := List.all_eq_true.mp hall x hx
          simp only [isNameChar, Bool.or_eq_true, decide_eq_true_iff] at hx2
          tauto
        · intro _
          rfl
      · rw [if_pos (by simp [Bool.not_eq_true] at h2 ⊢; exact h2)]
        constructor
        · intro hf
          exact absurd hf (by simp)
        · rintro ⟨hA, hB, hall⟩
          apply absurd _ h2
          have hne : (!(jsTrim raw).isEmpty) = true := by
            have hnil : jsTrim raw ≠ [] := by
              intro he
              rw [he] at hA
              simp at hA
            simpa using hnil
          have hal : (jsTrim raw).all isNameChar = true := by
            apply List.all_eq_true.mpr
            intro x hx
            have := hall x hx
            simp only [isNameChar, Bool.or_eq_true, decide_eq_true_iff]
            tauto
          show (!(jsTrim raw).isEmpty && (jsTrim raw).all isNameChar) = true
          rw [hne, hal]
          rfl
  · unfold validateValue emailRuleSpec
    dsimp only
    by_cases h : emailRegexTest (jsTrim raw) = true
    · rw [if_neg (by simp [h])]
      constructor
      · intro _
        exact (emailRegexTest_iff (jsTrim raw)).mp h
      · intro _
        rfl
    · rw [if_pos (by simp [Bool.not_eq_true] at h ⊢; exact h)]
      constructor
      · intro hf
        exact absurd hf (by simp)
      · intro hspec
        exact absurd ((emailRegexTest_iff (jsTrim raw)).mpr hspec) h
  · unfold validateValue messageRuleSpec
    dsimp only
    by_cases h1 : (decide ((jsTrim raw).length < 10)
        || decide ((jsTrim raw).length > 2000)) = true
    · rw [if_pos h1]
      simp only [Bool.or_eq_true, decide_eq_true_iff] at h1
      constructor
      · intro hf
        exact absurd hf (by simp)
      · rintro ⟨hA, hB⟩
        omega
    · simp only [Bool.or_eq_true, decide_eq_true_iff, not_or, not_lt] at h1
      rw [if_neg (by simp; omega)]
      exact ⟨fun _ => ⟨by omega, by omega⟩, fun _ => rfl⟩
